import Mathlib

/-
Shallow embedding of the larevt channel-status core:
 * SIOVChannelStatusProvider.cxx  (persistent/overlay status tables, update protocol)
 * SIOVChannelFilterService_service.cc  (noisy-channel classifier: histogram mode,
   symmetric window expansion for truncated mean and rms)

C++ machine integers are modelled as Nat/Int; `double` intermediate arithmetic is
modelled exactly over ℚ (every concrete input used below is exactly representable
in IEEE double, so the idealisation agrees with the machine computation there).
std::map<short,short> is modelled as an association list with strictly ascending
keys (its iteration order) or as a total count function with default 0 (the
value-read behaviour of operator[]).
-/

namespace LArEvt

/-- The chStatus enum of the channel-status data model:
Disconnected, Dead, LowNoise, Noisy, Good, Unknown. -/
inductive ChStatus where
  | kDISCONNECTED
  | kDEAD
  | kLOWNOISE
  | kNOISY
  | kGOOD
  | kUNKNOWN
deriving DecidableEq, Repr

/-- The data-source mode fixed at construction: Database, File, or Default. -/
inductive DataSource where
  | Database
  | File
  | Default
deriving DecidableEq, Repr

/-- Modelled from the spec: the numeric status codes carried by Backing Store rows,
in the enum's declaration order (the enum declaration lives in the provider header,
which is not part of the excerpted source).  The switch in
SIOVChannelStatusProvider::Update maps each recognised code to its enum value and
everything else to kUNKNOWN (the fail-safe-unknown default arm). -/
def statusFromCode (code : Int) : ChStatus :=
  if code = 0 then ChStatus.kDISCONNECTED
  else if code = 1 then ChStatus.kDEAD
  else if code = 2 then ChStatus.kLOWNOISE
  else if code = 3 then ChStatus.kNOISY
  else if code = 4 then ChStatus.kGOOD
  else ChStatus.kUNKNOWN

/-- One status table (the Snapshot): rows keyed by channel id, plus the attached
validity interval [iovBegin, iovEnd).  The DBFolder's cached interval is mirrored
here because Update copies it via fData.SetIoV(Begin(), End()). -/
structure SnapTable where
  rows : List (Nat × ChStatus)
  iovBegin : Nat
  iovEnd : Nat
deriving DecidableEq, Repr

/-- Row lookup by channel id (Snapshot::GetRow hit case). -/
def lookupRow (l : List (Nat × ChStatus)) (ch : Nat) : Option ChStatus :=
  (l.find? (fun p => p.1 = ch)).map (fun p => p.2)

/-- Modelled from the spec: Snapshot::AddOrReplaceRow (the Snapshot class is not in
the excerpted source).  "inserting a record with an existing id replaces it —
add-or-replace semantics, last write wins". -/
def addOrReplaceRow (l : List (Nat × ChStatus)) (ch : Nat) (st : ChStatus) :
    List (Nat × ChStatus) :=
  if l.any (fun p => p.1 = ch) then
    l.map (fun p => if p.1 = ch then (ch, st) else p)
  else
    l ++ [(ch, st)]

/-- Modelled from the spec: the persistent-table read used as the fallback of
lookup.  Snapshot::GetRow is not in the excerpted source; per the spec, a channel
"wholly unknown" to the table yields status Unknown and never raises. -/
def snapGetStatus (t : SnapTable) (ch : Nat) : ChStatus :=
  (lookupRow t.rows ch).getD ChStatus.kUNKNOWN

/-- The provider state: data-source mode, persistent table fData, overlay table
fNewNoisy, and the status field of the default-constructed fDefault member (its
default status value comes from the ChannelStatus constructor, which is not in
the excerpted source, so it is kept as an unconstrained field). -/
structure ProviderState where
  dataSource : DataSource
  fData : SnapTable
  fNewNoisy : List (Nat × ChStatus)
  fDefault : ChStatus
deriving DecidableEq, Repr

/-- Modelled from the spec: the Backing Store's fetch interface.  fetch ts returns
the row set (channel id, raw integer status code) together with the new validity
interval, or none on failure (network/parse error). -/
structure BackingStore where
  fetch : Nat → Option (List (Nat × Int) × Nat × Nat)

/-- Coverage test of a timestamp against the cached validity interval:
iovBegin ≤ ts < iovEnd. -/
def coveredTable (t : SnapTable) (ts : Nat) : Bool :=
  decide (t.iovBegin ≤ ts) && decide (ts < t.iovEnd)

/-- The provider constructor (SIOVChannelStatusProvider::SIOVChannelStatusProvider):
mode priority database > file > default; in Default mode every channel enumerated
by the geometry collaborator is seeded with status kGOOD. -/
def construct (useDB useFile : Bool) (geoChannels : List Nat)
    (ctorDefaultStatus : ChStatus) : ProviderState :=
  let ds := if useDB then DataSource.Database
            else if useFile then DataSource.File
            else DataSource.Default
  let rows :=
    if ds = DataSource.Default then
      geoChannels.foldl (fun acc ch => addOrReplaceRow acc ch ChStatus.kGOOD) []
    else []
  { dataSource := ds
    fData := { rows := rows, iovBegin := 0, iovEnd := 0 }
    fNewNoisy := []
    fDefault := ctorDefaultStatus }

/-- Build the persistent rows from a fetched row set, mapping each raw code through
the closed switch (statusFromCode) and inserting with add-or-replace semantics. -/
def loadRows (rows : List (Nat × Int)) : List (Nat × ChStatus) :=
  rows.foldl (fun acc p => addOrReplaceRow acc p.1 (statusFromCode p.2)) []

/-- SIOVChannelStatusProvider::Update: clear the overlay first on every path;
return false unless the data source is Database; in Database mode, consult the
Backing Store (UpdateFolder, modelled from the spec: cache hit when the timestamp
is covered by the cached interval, refresh failure when fetch fails); on a
successful fetch replace the persistent table's rows and validity interval. -/
def Update (bs : BackingStore) (s : ProviderState) (ts : Nat) : Bool × ProviderState :=
  let s1 := { s with fNewNoisy := ([] : List (Nat × ChStatus)) }
  if s1.dataSource ≠ DataSource.Database then (false, s1)
  else if coveredTable s1.fData ts then (false, s1)
  else
    match bs.fetch ts with
    | none => (false, s1)
    | some (rows, b, e) =>
        (true, { s1 with fData := { rows := loadRows rows, iovBegin := b, iovEnd := e } })

/-- SIOVChannelStatusProvider::GetChannelStatus: try the overlay first (the C++
try/catch around fNewNoisy.GetRow becomes the Option match), fall back to the
persistent table. -/
def GetChannelStatus (s : ProviderState) (ch : Nat) : ChStatus :=
  match lookupRow s.fNewNoisy ch with
  | some st => st
  | none => snapGetStatus s.fData ch

/-- Modelled from the spec: IsPresent (declared in the provider header, not in the
excerpted source): true iff the persistent-table status ≠ Disconnected, queried
against the persistent table only. -/
def IsPresent (s : ProviderState) (ch : Nat) : Bool :=
  decide (snapGetStatus s.fData ch ≠ ChStatus.kDISCONNECTED)

/-- Modelled from the spec: IsBad (declared in the provider header, not in the
excerpted source): true iff the persistent-table status is Dead or LowNoise. -/
def IsBad (s : ProviderState) (ch : Nat) : Bool :=
  decide (snapGetStatus s.fData ch = ChStatus.kDEAD ∨
          snapGetStatus s.fData ch = ChStatus.kLOWNOISE)

/-- SIOVChannelStatusProvider::AddNoisyChannel: insert/replace a kNOISY overlay
record, but only if the channel is not bad and is present; otherwise no-op. -/
def AddNoisyChannel (s : ProviderState) (ch : Nat) : ProviderState :=
  if IsBad s ch = false ∧ IsPresent s ch = true then
    { s with fNewNoisy := addOrReplaceRow s.fNewNoisy ch ChStatus.kNOISY }
  else s

/-- SIOVChannelStatusProvider::GetChannelsWithStatus: maxChannel = Nchannels − 1;
the loop `for (ch=0; ch != maxChannel; ++ch)` visits exactly the ids below
maxChannel.  In Default mode the comparison is against the fDefault member's
status; otherwise each visited id's unified GetChannelStatus is compared. -/
def GetChannelsWithStatus (nChannels : Nat) (s : ProviderState) (st : ChStatus) :
    Finset Nat :=
  let maxChannel := nChannels - 1
  if s.dataSource = DataSource.Default then
    if s.fDefault = st then Finset.range maxChannel else ∅
  else
    (Finset.range maxChannel).filter (fun ch => GetChannelStatus s ch = st)

/-- SIOVChannelStatusProvider::BadChannels: the Dead set with the LowNoise set
inserted into it. -/
def BadChannels (nChannels : Nat) (s : ProviderState) : Finset Nat :=
  GetChannelsWithStatus nChannels s ChStatus.kDEAD ∪
  GetChannelsWithStatus nChannels s ChStatus.kLOWNOISE

/-- The overlay invariant of the claim: only kNOISY records, only for channels that
are not bad and are present in the persistent table. -/
def OverlayOK (s : ProviderState) : Prop :=
  ∀ p ∈ s.fNewNoisy,
    p.2 = ChStatus.kNOISY ∧ IsBad s p.1 = false ∧ IsPresent s p.1 = true

/-- One step of the provider's lifecycle after construction: an Update call (with
any backing store and timestamp) or an AddNoisyChannel call. -/
inductive ProviderStep : ProviderState → ProviderState → Prop where
  | update (bs : BackingStore) (ts : Nat) (s : ProviderState) :
      ProviderStep s (Update bs s ts).2
  | addNoisy (ch : Nat) (s : ProviderState) :
      ProviderStep s (AddNoisyChannel s ch)

/-
Part 2: the noisy-channel classifier (SIOVChannelFilterService::FindNoisyChannels).
-/

/-- One step of the mode-selection scan: `if (binAdcItr.second > binMaxCnt)`
replaces the running mode, i.e. only on a strictly greater count. -/
def modeStep (acc p : Int × Nat) : Int × Nat :=
  if acc.2 < p.2 then p else acc

/-- The mode-selection scan over the histogram's entries in ascending key order
(std::map iteration): binMax starts at −1 with binMaxCnt 0, and an entry replaces
the running mode only on a strictly greater count. -/
def findMode (l : List (Int × Nat)) : Int × Nat :=
  l.foldl modeStep (-1, 0)

/-- Truncation toward zero, the behaviour of C's double-to-int conversion. -/
def ratTrunc (q : ℚ) : Int :=
  if 0 ≤ q then ⌊q⌋ else ⌈q⌉

/-- The target inclusion count of FindNoisyChannels, line 146:
`int minNumBins = (1. - fTruncMeanFraction) * dataSize - 1;` where dataSize is the
channel's own reported sample count digitVec->Samples() (NOT the clipped length
actually histogrammed), computed in double and truncated toward zero by the int
conversion. -/
def minNumBins (f : ℚ) (dataSize : Nat) : Int :=
  ratTrunc ((1 - f) * (dataSize : ℚ) - 1)

/-- Definition following the spec's words, for refinement comparison with
minNumBins: `target = floor((1 − truncation_fraction) × N) − 1` where N is the
length of the clipped sample sequence actually histogrammed. -/
def specTargetCount (f : ℚ) (n : Nat) : Int :=
  ⌊(1 - f) * (n : ℚ)⌋ - 1

/-- The histogram as a total count function (the value-read behaviour of
binAdcMap[v]: the count of v among the histogrammed samples, 0 when absent). -/
def histOf (samples : List Int) (v : Int) : Nat :=
  samples.count v

/-- Pass 1 of the symmetric window expansion after k full offset iterations:
the pair (curBinCnt, truncMean running sum).  Initial state: curBinCnt =
binMaxCnt, truncMean = peakValue = binMaxCnt * binMax.  Iteration at offset o
adds the bin at binMax − o (when its count is nonzero, the truthiness test
`if (binAdcMap[binMax-binOffset])`), then the bin at binMax + o. -/
def pass1 (h : Int → Nat) (m : Int) (c0 : Nat) : Nat → Nat × ℚ
  | 0 => (c0, ((c0 : Int) * m : Int))
  | k + 1 =>
    let prev := pass1 h m c0 k
    let o : Int := (k : Int) + 1
    let afterLo : Nat × ℚ :=
      if h (m - o) ≠ 0 then
        (prev.1 + h (m - o), prev.2 + ((h (m - o) : Int) * (m - o) : Int))
      else prev
    if h (m + o) ≠ 0 then
      (afterLo.1 + h (m + o), afterLo.2 + ((h (m + o) : Int) * (m + o) : Int))
    else afterLo

/-- Pass 2 of the symmetric window expansion after k full offset iterations:
the pair (rmsBinCnt, rmsVal running sum of count × (value − truncMean)²).
Initial state: rmsBinCnt = binMaxCnt, rmsVal = (binMax − truncMean) then
`rmsVal *= rmsBinCnt * rmsVal`.  Iteration at offset o adds the bin at
binMax − o (when `binAdcMap[...] > 0`), then the bin at binMax + o. -/
def pass2 (h : Int → Nat) (m : Int) (c0 : Nat) (mu : ℚ) : Nat → Nat × ℚ
  | 0 => (c0, ((m : ℚ) - mu) * ((c0 : ℚ) * ((m : ℚ) - mu)))
  | k + 1 =>
    let prev := pass2 h m c0 mu k
    let o : Int := (k : Int) + 1
    let afterLo : Nat × ℚ :=
      if 0 < h (m - o) then
        (prev.1 + h (m - o),
         prev.2 + (h (m - o) : ℚ) * ((((m - o : Int) : ℚ) - mu) * (((m - o : Int) : ℚ) - mu)))
      else prev
    if 0 < h (m + o) then
      (afterLo.1 + h (m + o),
       afterLo.2 + (h (m + o) : ℚ) * ((((m + o : Int) : ℚ) - mu) * (((m + o : Int) : ℚ) - mu)))
    else afterLo

/-- k is the iteration count at which a `while (cnt < target)` loop exits: the
guard fails at k and held at every earlier iteration. -/
def stopsAt (cnt : Nat → Nat) (target : Int) (k : Nat) : Prop :=
  target ≤ (cnt k : Int) ∧ ∀ j < k, (cnt j : Int) < target

/-
Concrete example states used by witnesses and counterexamples.
-/

/-- A store with a kNOISY overlay record for channel 1 over a persistent table
holding channels 1 (kGOOD) and 2 (kDEAD). -/
def exStore1 : ProviderState :=
  { dataSource := DataSource.Database
    fData := { rows := [(1, ChStatus.kGOOD), (2, ChStatus.kDEAD)], iovBegin := 0, iovEnd := 10 }
    fNewNoisy := [(1, ChStatus.kNOISY)]
    fDefault := ChStatus.kUNKNOWN }

/-- A File-mode store whose cached interval covers nothing. -/
def exStoreFile : ProviderState :=
  { dataSource := DataSource.File
    fData := { rows := [(0, ChStatus.kGOOD)], iovBegin := 0, iovEnd := 0 }
    fNewNoisy := []
    fDefault := ChStatus.kUNKNOWN }

/-- A backing store that always succeeds, returning one row (channel 0, code 1 =
Dead) valid over [0, 10). -/
def exBS : BackingStore :=
  { fetch := fun _ => some ([(0, (1 : Int))], 0, 10) }

/-- A backing store whose fetch always fails. -/
def exBSFail : BackingStore :=
  { fetch := fun _ => none }

/-- A Database-mode store over a 2-channel geometry: channel 0 kGOOD, channel 1
kDEAD (the largest channel id), empty overlay. -/
def exStore4 : ProviderState :=
  { dataSource := DataSource.Database
    fData := { rows := [(0, ChStatus.kGOOD), (1, ChStatus.kDEAD)], iovBegin := 0, iovEnd := 10 }
    fNewNoisy := []
    fDefault := ChStatus.kUNKNOWN }

/-- The clipped sample sequence of the non-termination scenario: the detector
reports NumberTimeSamples = 10, the digit reports Samples() = 100 with every ADC
value 7, so the histogrammed sequence is the first min(10,100) samples. -/
def exClipped : List Int :=
  (List.replicate 100 (7 : Int)).take (min 10 100)

/-
Helper lemmas shared by several claims.
-/

/-- Every row of an add-or-replace result is the inserted row or an old row. -/
theorem mem_addOrReplaceRow {l : List (Nat × ChStatus)} {ch : Nat} {st : ChStatus}
    {p : Nat × ChStatus} (h : p ∈ addOrReplaceRow l ch st) : p = (ch, st) ∨ p ∈ l := by
  by_cases ha : (l.any fun q => q.1 = ch) = true
  · rw [addOrReplaceRow, if_pos ha] at h
    rcases List.mem_map.mp h with ⟨q, hq, rfl⟩
    by_cases hq1 : q.1 = ch
    · rw [if_pos hq1]; exact Or.inl rfl
    · rw [if_neg hq1]; exact Or.inr hq
  · rw [addOrReplaceRow, if_neg ha] at h
    rcases List.mem_append.mp h with h | h
    · exact Or.inr h
    · exact Or.inl (List.mem_singleton.mp h)

/-- Update ends with an empty overlay on every control path. -/
theorem update_overlay_nil (bs : BackingStore) (s : ProviderState) (ts : Nat) :
    (Update bs s ts).2.fNewNoisy = [] := by
  by_cases hd : s.dataSource = DataSource.Database
  · by_cases hc : coveredTable s.fData ts = true
    · simp [Update, hd, hc]
    · cases hf : bs.fetch ts with
      | none => simp [Update, hd, hc, hf]
      | some v =>
          obtain ⟨rows, b, e⟩ := v
          simp [Update, hd, hc, hf]
  · simp [Update, hd]

/-
Claim theorems.
-/

/-- C1: GetChannelStatus returns the overlay's record when the overlay has one for
the channel, else the persistent table's record, else kUNKNOWN when the channel
is absent from both (a total function of the state: no error path); in
particular a kNOISY overlay record wins regardless of the persistent-table
status. -/
theorem getChannelStatus_overlay_precedence (s : ProviderState) (ch : Nat) :
    (∀ st, lookupRow s.fNewNoisy ch = some st → GetChannelStatus s ch = st) ∧
    (lookupRow s.fNewNoisy ch = none →
      ∀ st, lookupRow s.fData.rows ch = some st → GetChannelStatus s ch = st) ∧
    (lookupRow s.fNewNoisy ch = none → lookupRow s.fData.rows ch = none →
      GetChannelStatus s ch = ChStatus.kUNKNOWN) ∧
    (lookupRow s.fNewNoisy ch = some ChStatus.kNOISY →
      GetChannelStatus s ch = ChStatus.kNOISY) := by
  refine ⟨fun st h => ?_, fun h st h2 => ?_, fun h h2 => ?_, fun h => ?_⟩
  · simp [GetChannelStatus, h]
  · simp [GetChannelStatus, snapGetStatus, h, h2]
  · simp [GetChannelStatus, snapGetStatus, h, h2]
  · simp [GetChannelStatus, h]

/-- C1 witness: on a concrete store the three lookup branches produce the
overlay's kNOISY record, the persistent kDEAD record, and kUNKNOWN. -/
theorem getChannelStatus_overlay_precedence_witness :
    GetChannelStatus exStore1 1 = ChStatus.kNOISY ∧
    GetChannelStatus exStore1 2 = ChStatus.kDEAD ∧
    GetChannelStatus exStore1 3 = ChStatus.kUNKNOWN :=
  ⟨(getChannelStatus_overlay_precedence exStore1 1).2.2.2 (by decide),
   (getChannelStatus_overlay_precedence exStore1 2).2.1 (by decide) ChStatus.kDEAD (by decide),
   (getChannelStatus_overlay_precedence exStore1 3).2.2.1 (by decide) (by decide)⟩

/-- C6: every Update call ends with the overlay cleared, and on every
no-refresh path (mode other than Database, cache hit, or fetch failure) it
reports false and leaves the persistent table - rows and validity interval -
exactly as before. -/
theorem update_clears_overlay_preserves_table (bs : BackingStore) (s : ProviderState)
    (ts : Nat) :
    (Update bs s ts).2.fNewNoisy = [] ∧
    ((Update bs s ts).1 = false → (Update bs s ts).2.fData = s.fData) ∧
    ((s.dataSource ≠ DataSource.Database ∨ coveredTable s.fData ts = true ∨
        bs.fetch ts = none) →
      (Update bs s ts).1 = false ∧ (Update bs s ts).2.fData = s.fData) := by
  by_cases hd : s.dataSource = DataSource.Database
  · by_cases hc : coveredTable s.fData ts = true
    · simp [Update, hd, hc]
    · cases hf : bs.fetch ts with
      | none => simp [Update, hd, hc, hf]
      | some v =>
          obtain ⟨rows, b, e⟩ := v
          simp [Update, hd, hc, hf]
  · simp [Update, hd]

/-- C6 witness: Database mode, uncovered timestamp, failing fetch - Update
reports false and the persistent table is unchanged. -/
theorem update_clears_overlay_preserves_table_witness :
    (Update exBSFail exStore4 20).1 = false ∧
    (Update exBSFail exStore4 20).2.fData = exStore4.fData :=
  (update_clears_overlay_preserves_table exBSFail exStore4 20).2.2 (Or.inr (Or.inr rfl))

/-- C3 counterexample: in File mode, with an uncovered timestamp and a Backing
Store that would deliver rows, Update still returns false and leaves the
persistent table untouched - it never consults the Backing Store. -/
theorem file_mode_no_refresh_cex :
    coveredTable exStoreFile.fData 5 = false ∧
    exBS.fetch 5 ≠ none ∧
    (Update exBS exStoreFile 5).1 = false ∧
    (Update exBS exStoreFile 5).2.fData = exStoreFile.fData := by
  refine ⟨by decide, ?_, by decide, by decide⟩
  simp [exBS]

/-- C3 amended: Update refreshes only in Database mode.  In File mode (like
Default) it returns false with the persistent table unchanged; in Database mode
with an uncovered timestamp and a successful fetch it returns true and replaces
the persistent rows and validity interval. -/
theorem update_refreshes_only_database (bs : BackingStore) (s : ProviderState) (ts : Nat) :
    (s.dataSource = DataSource.File →
      (Update bs s ts).1 = false ∧ (Update bs s ts).2.fData = s.fData) ∧
    (s.dataSource = DataSource.Database → coveredTable s.fData ts = false →
      ∀ rows b e, bs.fetch ts = some (rows, b, e) →
        (Update bs s ts).1 = true ∧
        (Update bs s ts).2.fData = { rows := loadRows rows, iovBegin := b, iovEnd := e }) := by
  constructor
  · intro hf
    simp [Update, hf]
  · intro hd hc rows b e hfetch
    simp [Update, hd, hc, hfetch]

/-- C3 witness: the File-mode no-op and the Database-mode refresh, both at
concrete inputs. -/
theorem update_refreshes_only_database_witness :
    ((Update exBS exStoreFile 5).1 = false ∧
     (Update exBS exStoreFile 5).2.fData = exStoreFile.fData) ∧
    ((Update exBS exStore4 20).1 = true ∧
     (Update exBS exStore4 20).2.fData =
       { rows := loadRows [(0, (1 : Int))], iovBegin := 0, iovEnd := 10 }) :=
  ⟨(update_refreshes_only_database exBS exStoreFile 5).1 rfl,
   (update_refreshes_only_database exBS exStore4 20).2 rfl (by decide)
     [(0, (1 : Int))] 0 10 rfl⟩

/-- C4 counterexample: with Nchannels = 2 the largest channel id 1 has
persistent status kDEAD, yet GetChannelsWithStatus(kDEAD) is empty - the scan
loop `for (ch=0; ch != maxChannel; ++ch)` with maxChannel = Nchannels − 1 never
visits the largest channel id. -/
theorem channels_with_status_misses_largest_cex :
    snapGetStatus exStore4.fData 1 = ChStatus.kDEAD ∧
    (1 : Nat) ∉ GetChannelsWithStatus 2 exStore4 ChStatus.kDEAD ∧
    GetChannelsWithStatus 2 exStore4 ChStatus.kDEAD = ∅ := by decide

/-- C4 amended: GetChannelsWithStatus scans only the channel ids strictly below
Nchannels − 1 (the largest id is never visited); outside Default mode it
compares each visited id's unified overlay-first lookup (GetChannelStatus), not
the persistent table alone; in Default mode it returns that whole range iff the
default record's status equals the query; BadChannels is the union of the Dead
and LowNoise query results. -/
theorem channels_with_status_spec (nChannels : Nat) (s : ProviderState) (st : ChStatus)
    (ch : Nat) :
    (s.dataSource ≠ DataSource.Default →
      (ch ∈ GetChannelsWithStatus nChannels s st ↔
        ch < nChannels - 1 ∧ GetChannelStatus s ch = st)) ∧
    (s.dataSource = DataSource.Default →
      (ch ∈ GetChannelsWithStatus nChannels s st ↔
        ch < nChannels - 1 ∧ s.fDefault = st)) ∧
    (ch ∈ BadChannels nChannels s ↔
      ch ∈ GetChannelsWithStatus nChannels s ChStatus.kDEAD ∨
      ch ∈ GetChannelsWithStatus nChannels s ChStatus.kLOWNOISE) := by
  refine ⟨fun hd => ?_, fun hd => ?_, Finset.mem_union⟩
  · simp [GetChannelsWithStatus, hd, Finset.mem_filter, Finset.mem_range]
  · by_cases hdef : s.fDefault = st
    · simp [GetChannelsWithStatus, hd, hdef, Finset.mem_range]
    · simp [GetChannelsWithStatus, hd, hdef]

/-- C4 witness: the membership characterisation at a concrete store and
channel. -/
theorem channels_with_status_spec_witness :
    (0 : Nat) ∈ GetChannelsWithStatus 2 exStore4 ChStatus.kGOOD ↔
      (0 : Nat) < 2 - 1 ∧ GetChannelStatus exStore4 0 = ChStatus.kGOOD :=
  (channels_with_status_spec 2 exStore4 ChStatus.kGOOD 0).1 (by decide)

/-- Each lifecycle step preserves the overlay invariant. -/
theorem overlayOK_step {a b : ProviderState} (hstep : ProviderStep a b)
    (ha : OverlayOK a) : OverlayOK b := by
  cases hstep with
  | update bs ts =>
      intro p hp
      rw [update_overlay_nil] at hp
      cases hp
  | addNoisy ch =>
      by_cases hel : IsBad a ch = false ∧ IsPresent a ch = true
      · intro p hp
        have hb : AddNoisyChannel a ch =
            { a with fNewNoisy := addOrReplaceRow a.fNewNoisy ch ChStatus.kNOISY } := by
          rw [AddNoisyChannel, if_pos hel]
        rw [hb] at hp ⊢
        rcases mem_addOrReplaceRow hp with rfl | hp
        · exact ⟨rfl, hel.1, hel.2⟩
        · exact ha p hp
      · have hb : AddNoisyChannel a ch = a := by rw [AddNoisyChannel, if_neg hel]
        rw [hb]
        exact ha

/-- C7: at every state reachable from construction by Update and
AddNoisyChannel calls, the overlay contains only kNOISY records for channels
that are not bad and are present in the persistent table; and AddNoisyChannel
on a bad or absent channel is a no-op. -/
theorem overlay_invariant_and_noop (useDB useFile : Bool) (geoChannels : List Nat)
    (d : ChStatus) (s : ProviderState)
    (h : Relation.ReflTransGen ProviderStep (construct useDB useFile geoChannels d) s) :
    OverlayOK s ∧
    ∀ ch, (IsBad s ch = true ∨ IsPresent s ch = false) → AddNoisyChannel s ch = s := by
  have hnoop : ∀ (t : ProviderState) (ch : Nat),
      (IsBad t ch = true ∨ IsPresent t ch = false) → AddNoisyChannel t ch = t := by
    intro t ch hch
    rw [AddNoisyChannel, if_neg]
    rintro ⟨hb, hp⟩
    rcases hch with hch | hch
    · rw [hch] at hb; cases hb
    · rw [hch] at hp; cases hp
  refine ⟨?_, hnoop s⟩
  induction h with
  | refl =>
      intro p hp
      simp [construct] at hp
  | tail _ hstep ih => exact overlayOK_step hstep ih

/-- C7 witness: a concrete reachable state - one AddNoisyChannel call after a
Default-mode construction over channels 0 and 1. -/
theorem overlay_invariant_and_noop_witness :
    OverlayOK (AddNoisyChannel (construct false false [0, 1] ChStatus.kUNKNOWN) 1) ∧
    ∀ ch, (IsBad (AddNoisyChannel (construct false false [0, 1] ChStatus.kUNKNOWN) 1) ch = true ∨
           IsPresent (AddNoisyChannel (construct false false [0, 1] ChStatus.kUNKNOWN) 1) ch = false) →
      AddNoisyChannel (AddNoisyChannel (construct false false [0, 1] ChStatus.kUNKNOWN) 1) ch =
        AddNoisyChannel (construct false false [0, 1] ChStatus.kUNKNOWN) 1 :=
  overlay_invariant_and_noop false false [0, 1] ChStatus.kUNKNOWN _
    (Relation.ReflTransGen.single (ProviderStep.addNoisy 1 _))

/-- When no bin other than the mode bin is occupied, the cumulative count of
pass 1 never grows past the mode bin's own count. -/
theorem pass1_cnt_const (h : Int → Nat) (m : Int) (c0 : Nat)
    (hz : ∀ o : Int, o ≠ 0 → h (m + o) = 0) : ∀ k, (pass1 h m c0 k).1 = c0 := by
  intro k
  induction k with
  | zero => rfl
  | succ n ih =>
    have hlo : h (m - ((n : Int) + 1)) = 0 := by
      have h0 := hz (-((n : Int) + 1)) (by omega)
      rwa [← sub_eq_add_neg] at h0
    have hhi : h (m + ((n : Int) + 1)) = 0 := hz ((n : Int) + 1) (by omega)
    simp [pass1, hlo, hhi, ih]

/-- C2 (code-bug evidence): the target inclusion count is computed from the
channel's own reported length dataSize, not from the histogrammed (clipped)
length.  At the concrete scenario NumberTimeSamples = 10, Samples() = 100, all
ADC values 7, truncation_fraction = 1/2, only 10 samples are histogrammed while
minNumBins = 49, so the expansion-loop guard `curBinCnt < minNumBins` holds
after every iteration count k: the while loops never exit. -/
theorem expansion_loop_guard_never_fails :
    minNumBins (1/2) 100 = 49 ∧
    histOf exClipped 7 = 10 ∧
    ∀ k : Nat, ((pass1 (histOf exClipped) 7 10 k).1 : Int) < minNumBins (1/2) 100 := by
  refine ⟨by norm_num [minNumBins, ratTrunc], by decide, fun k => ?_⟩
  have hz : ∀ o : Int, o ≠ 0 → histOf exClipped (7 + o) = 0 := by
    intro o ho
    unfold histOf exClipped
    rw [List.count_eq_zero]
    intro hmem
    have h2 := List.mem_of_mem_take hmem
    rw [List.mem_replicate] at h2
    omega
  rw [pass1_cnt_const _ _ _ hz k]
  norm_num [minNumBins, ratTrunc]

/-- C5 counterexample: with truncation_fraction 1/2, a channel reporting 100
samples clipped to a 50-sample window, the code's target minNumBins is 49 while
the spec's formula over the clipped length N = min 50 100 gives 24. -/
theorem target_ignores_clipping_cex :
    minNumBins (1/2) 100 = 49 ∧
    specTargetCount (1/2) (min 50 100) = 24 ∧
    minNumBins (1/2) 100 ≠ specTargetCount (1/2) (min 50 100) := by
  norm_num [minNumBins, ratTrunc, specTargetCount]

/-- C5 amended: the code's target is computed from the channel's own reported
(unclipped) sample count S, and equals floor((1 − truncation_fraction) × S) − 1
whenever (1 − truncation_fraction) × S ≥ 1 (the double-to-int conversion
truncates toward zero, which agrees with floor on nonnegative values). -/
theorem minNumBins_eq_floor_of_unclipped (f : ℚ) (S : Nat)
    (h : 1 ≤ (1 - f) * (S : ℚ)) :
    minNumBins f S = ⌊(1 - f) * (S : ℚ)⌋ - 1 := by
  unfold minNumBins ratTrunc
  rw [if_pos (by linarith)]
  rw [show (1 - f) * (S : ℚ) - 1 = (1 - f) * (S : ℚ) - ((1 : Int) : ℚ) by norm_num,
    Int.floor_sub_int]

/-- C5 witness: truncation_fraction 1/2 on a 10-sample channel gives target
floor(5) − 1 = 4. -/
theorem minNumBins_eq_floor_of_unclipped_witness :
    minNumBins (1/2) 10 = ⌊(1 - (1/2 : ℚ)) * ((10 : Nat) : ℚ)⌋ - 1 :=
  minNumBins_eq_floor_of_unclipped (1/2) 10 (by norm_num)

/-- Characterisation of the mode-selection fold from an arbitrary accumulator:
the result carries a count no smaller than every visited count and than the
accumulator's, the result is the accumulator or a visited entry, the result
strictly beats the accumulator's count unless it is the accumulator, and under
ascending keys every visited entry tying the result's count lies at or after
the result's key. -/
theorem foldMode_spec :
    ∀ (l : List (Int × Nat)) (acc : Int × Nat),
      l.Pairwise (fun p q => p.1 < q.1) →
      (∀ q ∈ l, acc.2 = q.2 → acc.1 ≤ q.1) →
      acc.2 ≤ (l.foldl modeStep acc).2 ∧
      (l.foldl modeStep acc = acc ∨ l.foldl modeStep acc ∈ l) ∧
      (l.foldl modeStep acc = acc ∨ acc.2 < (l.foldl modeStep acc).2) ∧
      (∀ p ∈ l, p.2 ≤ (l.foldl modeStep acc).2) ∧
      (∀ p ∈ l, p.2 = (l.foldl modeStep acc).2 → (l.foldl modeStep acc).1 ≤ p.1) := by
  intro l
  induction l with
  | nil =>
      intro acc _ _
      simp
  | cons hd t ih =>
      intro acc hs ha
      have hs' : t.Pairwise (fun p q => p.1 < q.1) := hs.of_cons
      have hhd : ∀ q ∈ t, hd.1 < q.1 := (List.pairwise_cons.mp hs).1
      by_cases hcase : acc.2 < hd.2
      · have hfold : (hd :: t).foldl modeStep acc = t.foldl modeStep hd := by
          simp [List.foldl, modeStep, hcase]
        have ha' : ∀ q ∈ t, hd.2 = q.2 → hd.1 ≤ q.1 := fun q hq _ => le_of_lt (hhd q hq)
        obtain ⟨h1, h2, h3, h4, h5⟩ := ih hd hs' ha'
        rw [hfold]
        refine ⟨le_of_lt (lt_of_lt_of_le hcase h1), ?_, Or.inr (lt_of_lt_of_le hcase h1),
          ?_, ?_⟩
        · rcases h2 with h2 | h2
          · right; rw [h2]; exact List.mem_cons_self _ _
          · right; exact List.mem_cons_of_mem _ h2
        · intro p hp
          rcases List.mem_cons.mp hp with rfl | hp
          · exact h1
          · exact h4 p hp
        · intro p hp hpe
          rcases List.mem_cons.mp hp with rfl | hp
          · rcases h3 with h3 | h3
            · rw [h3]
            · exact absurd hpe (by omega)
          · exact h5 p hp hpe
      · have hfold : (hd :: t).foldl modeStep acc = t.foldl modeStep acc := by
          simp [List.foldl, modeStep, hcase]
        have ha' : ∀ q ∈ t, acc.2 = q.2 → acc.1 ≤ q.1 :=
          fun q hq => ha q (List.mem_cons_of_mem _ hq)
        obtain ⟨h1, h2, h3, h4, h5⟩ := ih acc hs' ha'
        rw [hfold]
        have hhd2 : hd.2 ≤ acc.2 := Nat.le_of_not_lt hcase
        refine ⟨h1, ?_, h3, ?_, ?_⟩
        · rcases h2 with h2 | h2
          · exact Or.inl h2
          · exact Or.inr (List.mem_cons_of_mem _ h2)
        · intro p hp
          rcases List.mem_cons.mp hp with rfl | hp
          · exact le_trans hhd2 h1
          · exact h4 p hp
        · intro p hp hpe
          rcases List.mem_cons.mp hp with rfl | hp
          · rcases h3 with h3 | h3
            · have hae : acc.2 = p.2 := by rw [h3] at hpe; omega
              rw [h3]
              exact ha p (List.mem_cons_self _ _) hae
            · exact absurd h3 (by omega)
          · exact h5 p hp hpe

/-- C8: for every histogram (ascending keys, positive counts, nonempty) the
mode-selection scan returns an entry of the histogram attaining the maximum
count, and its value is the smallest among all entries attaining that count. -/
theorem mode_smallest_argmax (l : List (Int × Nat))
    (hs : l.Pairwise (fun p q => p.1 < q.1))
    (hpos : ∀ p ∈ l, 0 < p.2) (hne : l ≠ []) :
    findMode l ∈ l ∧
    (∀ p ∈ l, p.2 ≤ (findMode l).2) ∧
    (∀ p ∈ l, p.2 = (findMode l).2 → (findMode l).1 ≤ p.1) := by
  have ha : ∀ q ∈ l, ((-1 : Int), (0 : Nat)).2 = q.2 →
      ((-1 : Int), (0 : Nat)).1 ≤ q.1 := by
    intro q hq h0
    exact absurd (hpos q hq) (by omega)
  obtain ⟨_, h2, _, h4, h5⟩ := foldMode_spec l ((-1 : Int), (0 : Nat)) hs ha
  unfold findMode
  rcases h2 with h2 | h2
  · exfalso
    obtain ⟨p, hp⟩ := List.exists_mem_of_ne_nil l hne
    have h4' := h4 p hp
    rw [h2] at h4'
    exact absurd (hpos p hp) (by omega)
  · exact ⟨h2, h4, h5⟩

/-- C8 witness: the spec's tie-break example - sample counts 10 ↦ 3, 11 ↦ 2,
12 ↦ 3 select mode 10, the smallest key among the max-count ties. -/
theorem mode_smallest_argmax_witness :
    (findMode [((10 : Int), (3 : Nat)), (11, 2), (12, 3)] ∈
       [((10 : Int), (3 : Nat)), (11, 2), (12, 3)] ∧
     (∀ p ∈ [((10 : Int), (3 : Nat)), (11, 2), (12, 3)],
        p.2 ≤ (findMode [((10 : Int), (3 : Nat)), (11, 2), (12, 3)]).2) ∧
     (∀ p ∈ [((10 : Int), (3 : Nat)), (11, 2), (12, 3)],
        p.2 = (findMode [((10 : Int), (3 : Nat)), (11, 2), (12, 3)]).2 →
        (findMode [((10 : Int), (3 : Nat)), (11, 2), (12, 3)]).1 ≤ p.1)) ∧
    findMode [((10 : Int), (3 : Nat)), (11, 2), (12, 3)] = (10, 3) :=
  ⟨mode_smallest_argmax _ (by decide) (by decide) (by decide), by decide⟩

/-- C9: for every histogram, starting bin and starting count, the dispersion
pass maintains exactly the cumulative bin count of the mean pass at every
iteration (the `binAdcMap[x]` truthiness test of pass 1 and the
`binAdcMap[x] > 0` test of pass 2 coincide), so against any shared target the
two while loops stop after identical iteration counts, having visited
identical bins, with identical final cumulative counts. -/
theorem passes_visit_identical_bins (h : Int → Nat) (m : Int) (c0 : Nat) (mu : ℚ) :
    (∀ k, (pass2 h m c0 mu k).1 = (pass1 h m c0 k).1) ∧
    (∀ target k,
      stopsAt (fun j => (pass1 h m c0 j).1) target k ↔
      stopsAt (fun j => (pass2 h m c0 mu j).1) target k) := by
  have hcnt : ∀ k, (pass2 h m c0 mu k).1 = (pass1 h m c0 k).1 := by
    intro k
    induction k with
    | zero => rfl
    | succ n ih =>
        by_cases hlo : h (m - ((n : Int) + 1)) = 0 <;>
          by_cases hhi : h (m + ((n : Int) + 1)) = 0 <;>
            simp [pass1, pass2, hlo, hhi, ih, Nat.pos_iff_ne_zero]
  refine ⟨hcnt, fun target k => ?_⟩
  unfold stopsAt
  constructor
  · rintro ⟨hk, hj⟩
    refine ⟨?_, fun j hjk => ?_⟩
    · show target ≤ ((pass2 h m c0 mu k).1 : Int)
      rw [hcnt k]
      exact hk
    · show ((pass2 h m c0 mu j).1 : Int) < target
      rw [hcnt j]
      exact hj j hjk
  · rintro ⟨hk, hj⟩
    refine ⟨?_, fun j hjk => ?_⟩
    · show target ≤ ((pass1 h m c0 k).1 : Int)
      rw [← hcnt k]
      exact hk
    · show ((pass1 h m c0 j).1 : Int) < target
      rw [← hcnt j]
      exact hj j hjk

/-- C9 witness: on the two-sample histogram the two passes agree on the
cumulative count after three iterations. -/
theorem passes_visit_identical_bins_witness :
    (pass2 (histOf [7, 7]) 7 2 0 3).1 = (pass1 (histOf [7, 7]) 7 2 3).1 :=
  (passes_visit_identical_bins (histOf [7, 7]) 7 2 0).1 3

/-- C10 counterexample: a channel with zero histogrammed samples (empty
histogram, mode initialised to binMax = −1 with binMaxCnt = 0, reported length
0 so minNumBins = −1).  Both loops do zero iterations, but the truncated mean
is the division 0/0 by the zero window count (0 in the exact model, NaN in
IEEE), which is not the mode value −1 - the division is not well-defined and
mean = mode_value fails. -/
theorem zero_samples_mean_not_mode_cex :
    findMode [] = ((-1 : Int), (0 : Nat)) ∧
    minNumBins (1/10) 0 = -1 ∧
    stopsAt (fun k => (pass1 (histOf []) (-1) 0 k).1) (minNumBins (1/10) 0) 0 ∧
    (pass1 (histOf []) (-1) 0 0).1 = 0 ∧
    (pass1 (histOf []) (-1) 0 0).2 / ((pass1 (histOf []) (-1) 0 0).1 : ℚ) = 0 ∧
    ((0 : ℚ) ≠ ((-1 : Int) : ℚ)) := by
  have hm : minNumBins (1/10) 0 = -1 := by
    norm_num [minNumBins, ratTrunc]
    rw [show (-1 : ℚ) = ((-1 : Int) : ℚ) by norm_num, Int.ceil_intCast]
  refine ⟨rfl, hm, ⟨?_, fun j hj => absurd hj (Nat.not_lt_zero j)⟩, rfl, ?_, by norm_num⟩
  · rw [hm]
    norm_num [pass1]
  · norm_num [pass1]

/-- C10 amended: for channels with at least one histogrammed sample whose mode
bin alone meets the target, both passes stop after zero iterations, the
truncated mean equals the mode value, and the dispersion sum - hence the rms -
is zero, with both divisions by a nonzero window count; the zero-sample case
is excluded: there the window count is zero and the mean division is 0/0. -/
theorem mode_bin_alone_valid (h : Int → Nat) (m : Int) (c0 : Nat) (target : Int)
    (h1 : 1 ≤ c0) (h2 : target ≤ (c0 : Int)) :
    stopsAt (fun k => (pass1 h m c0 k).1) target 0 ∧
    stopsAt (fun k => (pass2 h m c0 ((pass1 h m c0 0).2 / ((pass1 h m c0 0).1 : ℚ)) k).1)
      target 0 ∧
    (pass1 h m c0 0).2 / ((pass1 h m c0 0).1 : ℚ) = (m : ℚ) ∧
    (pass2 h m c0 ((pass1 h m c0 0).2 / ((pass1 h m c0 0).1 : ℚ)) 0).2 /
      ((pass2 h m c0 ((pass1 h m c0 0).2 / ((pass1 h m c0 0).1 : ℚ)) 0).1 : ℚ) = 0 := by
  have hc : ((c0 : ℚ)) ≠ 0 := Nat.cast_ne_zero.mpr (by omega)
  have hmean : (pass1 h m c0 0).2 / ((pass1 h m c0 0).1 : ℚ) = (m : ℚ) := by
    simp only [pass1]
    push_cast
    field_simp
  refine ⟨⟨h2, fun j hj => absurd hj (Nat.not_lt_zero j)⟩,
    ⟨h2, fun j hj => absurd hj (Nat.not_lt_zero j)⟩, hmean, ?_⟩
  rw [hmean]
  simp only [pass2]
  simp

/-- C10 witness: the histogram of two samples of value 7, mode bin (7, 2),
target 1 ≤ 2. -/
theorem mode_bin_alone_valid_witness :
    stopsAt (fun k => (pass1 (histOf [7, 7]) 7 2 k).1) 1 0 ∧
    stopsAt (fun k =>
      (pass2 (histOf [7, 7]) 7 2
        ((pass1 (histOf [7, 7]) 7 2 0).2 / ((pass1 (histOf [7, 7]) 7 2 0).1 : ℚ)) k).1) 1 0 ∧
    (pass1 (histOf [7, 7]) 7 2 0).2 / ((pass1 (histOf [7, 7]) 7 2 0).1 : ℚ) = ((7 : Int) : ℚ) ∧
    (pass2 (histOf [7, 7]) 7 2
        ((pass1 (histOf [7, 7]) 7 2 0).2 / ((pass1 (histOf [7, 7]) 7 2 0).1 : ℚ)) 0).2 /
      ((pass2 (histOf [7, 7]) 7 2
        ((pass1 (histOf [7, 7]) 7 2 0).2 / ((pass1 (histOf [7, 7]) 7 2 0).1 : ℚ)) 0).1 : ℚ) = 0 :=
  mode_bin_alone_valid (histOf [7, 7]) 7 2 1 (by decide) (by decide)

end LArEvt
